import Mathlib

/-!
Shallow embedding of the `panorama-investidor` repository's data-acquisition
layer (`data_provider.py`, `app.py:get_data_with_fallback`) and indicator
computation layer (`metrics.py:calcular_metricas`, `app.py:calcular_metricas`,
`app.py:calculate_indicators`), together with theorems settling a list of
claims about the behaviour of these modules.

Modelling conventions:
* Python floats are modelled by exact rationals `ℚ`; a possibly-NaN float is
  `PyF := Option ℚ` with `none` standing for NaN, and a nullable dict value is
  `PyV := Option PyF` with the outer `none` standing for Python `None`.
* The two irrational float operations appearing in the source — `x ** y`
  (used for `252 ** 0.5` and the CAGR power) and the square root inside
  `Series.std` — are abstracted into a `FloatOps` record; theorems that need
  facts about them take them as explicit hypotheses satisfied by the real
  square root (e.g. `sq 0 = 0`, `0 < v → 0 < sq v`).
* `pandas` series operations are modelled on Lean lists: `dropna` becomes
  `filterMap`, `pct_change` a zip with the tail, `cumprod`/`cummax` explicit
  recursions, `std(ddof=1)` the sample standard deviation (NaN below two
  points), and `mean` the exact rational mean.
-/

/-- A Python float value: `none` models NaN, `some q` a finite float. -/
abbrev PyF := Option ℚ

/-- A value slot of a Python indicator dictionary: `none` models Python
`None`, `some f` a float `f` (which may itself be NaN). -/
abbrev PyV := Option PyF

/-- Multiplication of Python floats: NaN propagates. -/
def pyMul : PyF → PyF → PyF
  | some a, some b => some (a * b)
  | _, _ => none

/-- Division of Python floats: NaN propagates (division by an exact zero is
never reached by the guarded call sites modelled here). -/
def pyDiv : PyF → PyF → PyF
  | some a, some b => if b = 0 then none else some (a / b)
  | _, _ => none

/-- Python's `x != 0` on a float: NaN compares unequal to zero, so the test
is `true` for NaN — the pitfall behind `app.py`'s Sharpe-ratio guard. -/
def pyNeqZero : PyF → Bool
  | none => true
  | some v => v ≠ 0

/-- Mean of a list of floats with no NaN entries; NaN on an empty list,
matching `Series.mean` on an empty series. -/
def pyListMean (l : List ℚ) : PyF :=
  if l.isEmpty then none else some (l.sum / (l.length : ℚ))

/-- Mean of a float column that skips NaN entries, as `Series.mean` does;
NaN when no entry is present. -/
def pyMeanSkipNa (l : List PyF) : PyF :=
  pyListMean (l.filterMap id)

/-- Exact mean of a rational list (used only at call sites where the list is
known non-empty). -/
def listMean (l : List ℚ) : ℚ := l.sum / (l.length : ℚ)

/-- Sample variance with the `n - 1` denominator (`ddof=1`), used only
behind guards ensuring at least two points. -/
def sampleVar (l : List ℚ) : ℚ :=
  (l.map (fun x => (x - listMean l) ^ 2)).sum / ((l.length : ℚ) - 1)

/-- Sample covariance with the `n - 1` denominator, as `Series.cov`. -/
def sampleCov (l : List (ℚ × ℚ)) : ℚ :=
  (l.map (fun p =>
    (p.1 - listMean (l.map Prod.fst)) * (p.2 - listMean (l.map Prod.snd)))).sum /
    ((l.length : ℚ) - 1)

/-- The irrational float operations of the source, abstracted: `sq` models
the square root used by `Series.std` and by `252 ** 0.5`, and `powq` models
the binary float power `x ** y` of the CAGR computation. -/
structure FloatOps where
  sq : ℚ → ℚ
  powq : ℚ → ℚ → ℚ

/-- A concrete instantiation of the abstract float operations, used to
evaluate witnesses and counterexamples on paths where the abstracted
operations are either unreached or irrelevant to the stated fact. -/
def idFloatOps : FloatOps := ⟨fun v => v, fun a _ => a⟩

/-- Model of `Series.std(ddof=1)`: NaN below two data points, otherwise the
square root of the sample variance. -/
def sampleStd (F : FloatOps) (l : List ℚ) : PyF :=
  if l.length < 2 then none else some (F.sq (sampleVar l))

/-- Model of `close.pct_change().dropna()` on an already-clean list:
`r[i] = close[i] / close[i-1] - 1`. -/
def pctChanges (l : List ℚ) : List ℚ :=
  (l.zip l.tail).map (fun p => p.2 / p.1 - 1)

/-- Running products of `1 + r` with accumulator, the body of
`(1 + returns).cumprod()`. -/
def cumprodAux (acc : ℚ) : List ℚ → List ℚ
  | [] => []
  | r :: rs => (acc * (1 + r)) :: cumprodAux (acc * (1 + r)) rs

/-- Model of `(1 + returns).cumprod()`. -/
def cumprod1p (rs : List ℚ) : List ℚ := cumprodAux 1 rs

/-- Running maxima continuing from `m`, the body of `Series.cummax`. -/
def cummaxAux (m : ℚ) : List ℚ → List ℚ
  | [] => []
  | x :: xs => max m x :: cummaxAux (max m x) xs

/-- Model of `Series.cummax`. -/
def cummaxList : List ℚ → List ℚ
  | [] => []
  | x :: xs => x :: cummaxAux x xs

/-- Elementwise `cumulative / running_max - 1`, the drawdown series. -/
def drawdownList (gs ms : List ℚ) : List ℚ :=
  (gs.zip ms).map (fun p => p.1 / p.2 - 1)

/-- Model of `Series.min` on a list known to be non-empty at its call
sites (`0` on the empty list, never used there). -/
def listMin : List ℚ → ℚ
  | [] => 0
  | x :: xs => xs.foldl min x

/-- Model of `close.tail(k).mean()`: the mean of the last `k` elements. -/
def lastNMean (k : ℕ) (l : List ℚ) : ℚ :=
  let t := l.drop (l.length - k)
  t.sum / (t.length : ℚ)

/-- Model of `series.iloc[0]` on a non-empty clean series. -/
def ilocFirst (l : List ℚ) : ℚ := l.headD 0

/-- Model of `series.iloc[-1]` on a non-empty clean series. -/
def ilocLast (l : List ℚ) : ℚ := l.getLastD 0

/-- Model of `series.index[0]` paired with its value, on the
(date, close) representation of a clean series. -/
def ilocFirstP (l : List (ℤ × ℚ)) : ℤ × ℚ := l.headD (0, 0)

/-- Model of `series.index[-1]` paired with its value. -/
def ilocLastP (l : List (ℤ × ℚ)) : ℤ × ℚ := l.getLastD (0, 0)

/-- Model of a `pandas` DataFrame as consumed by the indicator functions:
an index (day numbers, with a flag recording whether it is a
`DatetimeIndex`), an optional `Close` column and an optional `Volume`
column, both aligned with the index and admitting NaN holes. -/
structure DF where
  isDatetime : Bool
  dates : List ℤ
  close : Option (List PyF)
  volume : Option (List PyF)
deriving DecidableEq

/-- Model of `df.empty` (no rows). -/
def DF.isEmptyDF (df : DF) : Bool := df.dates.isEmpty

/-- Model of `df["Close"].dropna()` keeping the index: the valid
(date, close) pairs; empty when the `Close` column is missing. -/
def DF.validClose (df : DF) : List (ℤ × ℚ) :=
  match df.close with
  | none => []
  | some cs => (df.dates.zip cs).filterMap (fun p => p.2.map (fun v => (p.1, v)))

/-- The valid close values themselves, as used by all return computations. -/
def DF.closeVals (df : DF) : List ℚ := df.validClose.map Prod.snd

/-- Model of `close.pct_change().dropna()` keeping the index dates of the
surviving entries, as needed by the beta alignment. -/
def DF.returnsWithDates (df : DF) : List (ℤ × ℚ) :=
  (df.validClose.zip df.validClose.tail).map (fun p => (p.2.1, p.2.2 / p.1.2 - 1))

/-- Result record of `app.py:calcular_metricas` (its returned dict). -/
structure MetricsOut where
  retorno_acumulado : PyV
  cagr : PyV
  volatilidade_anualizada : PyV
  sharpe_ratio : PyV
  max_drawdown : PyV
  beta_vs_ibov : PyV
deriving DecidableEq

/-- The all-`None` dictionary returned by `app.py:calcular_metricas` on its
two early-exit branches. -/
def allNoneOut : MetricsOut := ⟨none, none, none, none, none, none⟩

/-- Model of the beta computation of `app.py:calcular_metricas`
(lines 151-159): align asset and benchmark daily returns on common index
dates with an inner join, and with more than one aligned point and non-zero
benchmark variance return `cov / var`. -/
def appBeta (df : DF) (bench : Option DF) : PyV :=
  match bench with
  | none => none
  | some b =>
    if b.isEmptyDF || b.close.isNone then none
    else
      let ar := df.returnsWithDates
      let br := b.returnsWithDates
      let aligned := ar.filterMap
        (fun p => (br.find? (fun q => q.1 == p.1)).map (fun q => (p.2, q.2)))
      if 1 < aligned.length then
        let bv := sampleVar (aligned.map Prod.snd)
        if bv ≠ 0 then some (some (sampleCov aligned / bv)) else none
      else none

/-- Model of `app.py:calcular_metricas` (lines 111-168). Percentages are
already multiplied by 100; `anos` is always `len(returns) / 252`; NaN from
`Series.std` on a single return propagates into the Sharpe ratio because
Python's `NaN != 0` test is true. -/
def appCalcularMetricas (F : FloatOps) (df : DF) (bench : Option DF) : MetricsOut :=
  if df.isEmptyDF || df.close.isNone then allNoneOut
  else
    let close := df.closeVals
    if close.length < 2 then allNoneOut
    else
      let returns := pctChanges close
      let first := ilocFirst close
      let lastc := ilocLast close
      let retorno : PyV := some (some ((lastc / first - 1) * 100))
      let anos : Option ℚ :=
        if 0 < returns.length then some ((returns.length : ℚ) / 252) else none
      let cagr : PyV :=
        match anos with
        | some a =>
          if 0 < a then some (some ((F.powq (lastc / first) (1 / a) - 1) * 100))
          else none
        | none => none
      let stdv := sampleStd F returns
      let vol : PyV :=
        if returns.isEmpty then none
        else some (pyMul (pyMul stdv (some (F.sq 252))) (some 100))
      let sharpe : PyV :=
        if !returns.isEmpty && pyNeqZero stdv then
          some (pyMul (pyDiv (pyListMean returns) stdv) (some (F.sq 252)))
        else none
      let dd := drawdownList (cumprod1p returns) (cummaxList (cumprod1p returns))
      let mdd : PyV := if dd.isEmpty then none else some (some (listMin dd * 100))
      ⟨retorno, cagr, vol, sharpe, mdd, appBeta df bench⟩

/-- Result record of `metrics.py:calcular_metricas` (its returned dict). -/
structure MetricsM where
  retorno_acumulado : PyV
  cagr : PyV
  volatilidade_anualizada : PyV
  sharpe_ratio : PyV
  maximo_drawdown : PyV
deriving DecidableEq

/-- The all-`None` dictionary of `metrics.py:_empty_metrics`. -/
def allNoneM : MetricsM := ⟨none, none, none, none, none⟩

/-- Model of `metrics.py:calcular_metricas` (lines 20-67). Fractions are not
scaled by 100 here; `retorno_acumulado` and `cagr` are initialised to the
float `0.0` and only overwritten when `len(close) > 1 and close.iloc[0] > 0`
(and, for `cagr`, additionally `anos > 0`); `anos` uses the calendar span in
days over 365.25 when the index is a `DatetimeIndex`, otherwise
`len(returns) / 252`; the Sharpe ratio is guarded by `pd.notna(desvio)` and
`desvio > 0` and therefore never NaN. -/
def metricsCalcularMetricas (F : FloatOps) (df : DF) : MetricsM :=
  if df.isEmptyDF || df.close.isNone then allNoneM
  else
    let vc := df.validClose
    let close := df.closeVals
    if close.isEmpty then allNoneM
    else
      let returns := pctChanges close
      let first := ilocFirst close
      let lastc := ilocLast close
      let rc : ℚ × ℚ :=
        if 1 < close.length ∧ 0 < first then
          let anos : ℚ :=
            if df.isDatetime ∧ 1 < vc.length then
              (((ilocLastP vc).1 - (ilocFirstP vc).1 : ℤ) : ℚ) / (1461 / 4)
            else (returns.length : ℚ) / 252
          (lastc / first - 1,
           if 0 < anos then F.powq (lastc / first) (1 / anos) - 1 else 0)
        else (0, 0)
      let vs : PyV × PyV :=
        if returns.isEmpty then (none, none)
        else
          match sampleStd F returns with
          | none => (none, none)
          | some d =>
            (some (some (d * F.sq 252)),
             if 0 < d then some (some (listMean returns / d * F.sq 252)) else none)
      let dd := drawdownList (cumprod1p returns) (cummaxList (cumprod1p returns))
      let mdd : PyV := if dd.isEmpty then none else some (some (listMin dd))
      ⟨some (some rc.1), some (some rc.2), vs.1, vs.2, mdd⟩

/-- Result record of `metrics.py:calculate_metrics` (its returned dict). -/
structure MetricsW where
  return_accumulated : PyV
  cagr : PyV
  volatility_annualized : PyV
  sharpe : PyV
  max_drawdown : PyV
  last_close : PyV
deriving DecidableEq

/-- Scale a nullable float by `k`, as the `None if x is None else x * 100`
expressions of `metrics.py:calculate_metrics` do (NaN scales to NaN). -/
def pyvScale (k : ℚ) : PyV → PyV
  | none => none
  | some f => some (f.map (fun v => v * k))

/-- Model of `metrics.py:calculate_metrics` (lines 70-82), the compatibility
wrapper multiplying the fractional metrics by 100 and adding `last_close`. -/
def metricsCalculateMetrics (F : FloatOps) (df : DF) : MetricsW :=
  let m := metricsCalcularMetricas F df
  ⟨pyvScale 100 m.retorno_acumulado,
   pyvScale 100 m.cagr,
   pyvScale 100 m.volatilidade_anualizada,
   m.sharpe_ratio,
   pyvScale 100 m.maximo_drawdown,
   if !df.isEmptyDF && df.close.isSome && !df.closeVals.isEmpty then
     some (some (ilocLast df.closeVals))
   else none⟩

/-- Concrete input for the C7 witness: three positive, non-decreasing closes. -/
def dfC7w : DF := ⟨false, [0, 1, 2], some [some 1, some 2, some 2], none⟩

/-- Concrete input for the C2 counterexample: exactly one valid close. -/
def dfC2x : DF := ⟨false, [0], some [some 100], none⟩

/-- Concrete input for the C2 witness: a different single-close series. -/
def dfC2w : DF := ⟨true, [3], some [some 7], none⟩

/-- Concrete input for the C3 counterexample: first close is negative. -/
def dfC3x : DF := ⟨false, [0, 1], some [some (-1), some 2], none⟩

/-- Concrete input for the C3 witness: positive closes on a calendar index
spanning 365 days. -/
def dfC3w : DF := ⟨true, [0, 365], some [some 8, some 16], none⟩

/-- Concrete input for the C6 counterexample: exactly two valid closes,
hence a single daily return. -/
def dfC6x : DF := ⟨false, [0, 1], some [some 100, some 110], none⟩

/-- Concrete input for the C6 witness: three identical closes, so the daily
returns are all identical with zero variance. -/
def dfC6w : DF := ⟨false, [0, 1, 2], some [some 5, some 5, some 5], none⟩

/-! ### `app.py:calculate_indicators` -/

/-- Model of `series.iloc[-2]` on a series with at least two elements. -/
def ilocSecondLast (l : List ℚ) : ℚ := l.getD (l.length - 2) 0

/-- Lookup in a Python dict modelled as an insertion-ordered association
list. -/
def dictLookup (key : String) : List (String × PyV) → Option PyV
  | [] => none
  | (k, v) :: rest => if k = key then some v else dictLookup key rest

/-- The key set (in insertion order) of a modelled Python dict. -/
def keysOf (l : List (String × PyV)) : List String := l.map Prod.fst

/-- Model of `app.py:calculate_indicators` (lines 171-215): the early branch
returns an 8-key all-`None` dict; the main branch returns a 12-key dict that
additionally carries `retorno_acumulado`, `cagr`, `sharpe_ratio` and
`beta_vs_ibov` from `calcular_metricas`. -/
def calculateIndicators (F : FloatOps) (df : DF) (bench : Option DF) :
    List (String × PyV) :=
  if df.isEmptyDF || df.close.isNone then
    [("last_price", none), ("price_change_pct", none), ("period_return", none),
     ("volatility", none), ("max_drawdown", none), ("avg_volume", none),
     ("ma20", none), ("ma50", none)]
  else
    let close := df.closeVals
    let lastPrice : Option ℚ := if close.isEmpty then none else some (ilocLast close)
    let prevClose : Option ℚ :=
      if 1 < close.length then some (ilocSecondLast close) else none
    let priceChange : PyV :=
      match lastPrice, prevClose with
      | some lp, some pc => if pc ≠ 0 then some (some ((lp / pc - 1) * 100)) else none
      | _, _ => none
    let periodReturn : PyV :=
      if 1 < close.length then
        some (some ((ilocLast close / ilocFirst close - 1) * 100))
      else none
    let m := appCalcularMetricas F df bench
    let avgVol : PyV :=
      match df.volume with
      | some vs => some (pyMeanSkipNa vs)
      | none => none
    let ma20 : PyV :=
      if 20 ≤ close.length then some (some (lastNMean 20 close)) else none
    let ma50 : PyV :=
      if 50 ≤ close.length then some (some (lastNMean 50 close)) else none
    [("last_price", lastPrice.map (fun v => some v)),
     ("price_change_pct", priceChange),
     ("period_return", periodReturn),
     ("volatility", m.volatilidade_anualizada),
     ("max_drawdown", m.max_drawdown),
     ("retorno_acumulado", m.retorno_acumulado),
     ("cagr", m.cagr),
     ("sharpe_ratio", m.sharpe_ratio),
     ("beta_vs_ibov", m.beta_vs_ibov),
     ("avg_volume", avgVol),
     ("ma20", ma20),
     ("ma50", ma50)]

/-- Concrete input for the C8 witness: exactly 20 valid closes. -/
def dfC8w : DF :=
  ⟨false,
   [0, 1, 2, 3, 4, 5, 6, 7, 8, 9, 10, 11, 12, 13, 14, 15, 16, 17, 18, 19],
   some [some 10, some 10, some 10, some 10, some 10, some 10, some 10,
         some 10, some 10, some 10, some 10, some 10, some 10, some 10,
         some 10, some 10, some 10, some 10, some 10, some 10],
   none⟩

/-- The key list of the early (empty-input) branch of
`app.py:calculate_indicators`. -/
def earlyKeys : List String :=
  ["last_price", "price_change_pct", "period_return", "volatility",
   "max_drawdown", "avg_volume", "ma20", "ma50"]

/-- The key list of the main branch of `app.py:calculate_indicators`. -/
def fullKeys : List String :=
  ["last_price", "price_change_pct", "period_return", "volatility",
   "max_drawdown", "retorno_acumulado", "cagr", "sharpe_ratio",
   "beta_vs_ibov", "avg_volume", "ma20", "ma50"]

/-- Concrete empty input for the C10 witness. -/
def dfC10a : DF := ⟨false, [], none, none⟩

/-- Concrete single-close input for the C10 witness. -/
def dfC10b : DF := ⟨false, [0], some [some 3], none⟩

/-! ### `data_provider.py`: normalization, rate-limit detection, providers -/

/-- Model of a raw `pandas` DataFrame as handed to `_normalize_history`:
named columns over rows indexed by a date (day number), with per-cell NaN
holes. Also the shape of a normalized frame. -/
structure RawDF where
  colNames : List String
  rows : List (ℤ × List PyF)
deriving DecidableEq

/-- Label-based cell access, as `df[c]` for a single column: the value of
column `c` in a row whose cells are aligned with `names`. -/
def colValue (names : List String) (vals : List PyF) (c : String) : PyF :=
  match (names.zip vals).find? (fun p => p.1 == c) with
  | some p => p.2
  | none => none

/-- The columns kept by `_normalize_history`. -/
def ohlcvNames : List String := ["Open", "High", "Low", "Close", "Volume"]

/-- A row survives `dropna(how="all")` iff some kept cell is present. -/
def rowAnyPresent (r : ℤ × List PyF) : Bool := r.2.any (fun v => v.isSome)

/-- Row order used by `sort_index`: ascending dates. -/
def rowLe (a b : ℤ × List PyF) : Prop := a.1 ≤ b.1

instance : DecidableRel rowLe := fun a b => Int.decLe a.1 b.1

instance : IsTotal (ℤ × List PyF) rowLe := ⟨fun a b => le_total a.1 b.1⟩

instance : IsTrans (ℤ × List PyF) rowLe := ⟨fun _ _ _ h1 h2 => le_trans h1 h2⟩

/-- Model of `data_provider.py:_normalize_history` (lines 40-49): `None` on
an empty frame; keep only the OHLCV columns present; drop rows that are
missing across all kept columns; sort by date; `None` again if nothing is
left (so an empty frame is never returned). -/
def normalizeHistory (df : RawDF) : Option RawDF :=
  if df.rows.isEmpty || df.colNames.isEmpty then none
  else
    let kept := ohlcvNames.filter (fun c => df.colNames.contains c)
    let selRows := df.rows.map
      (fun r => (r.1, kept.map (fun c => colValue df.colNames r.2 c)))
    let cleanRows := selRows.filter rowAnyPresent
    if kept.isEmpty || cleanRows.isEmpty then none
    else some ⟨kept, List.insertionSort rowLe cleanRows⟩

/-- ASCII upper-casing of one character, the effective behaviour of
Python's `str.upper` on ticker symbols. -/
def asciiUpper (c : Char) : Char := if c.isLower then Char.ofNat (c.toNat - 32) else c

/-- ASCII lower-casing of one character, the effective behaviour of
Python's `str.lower` on provider error messages. -/
def asciiLower (c : Char) : Char := if c.isUpper then Char.ofNat (c.toNat + 32) else c

/-- Model of Python's `str.strip`. -/
def pyStrip (s : String) : String :=
  ⟨((s.data.dropWhile Char.isWhitespace).reverse.dropWhile Char.isWhitespace).reverse⟩

/-- Model of Python's `str.upper`. -/
def pyUpper (s : String) : String := ⟨s.data.map asciiUpper⟩

/-- Model of Python's `str.lower`. -/
def pyLower (s : String) : String := ⟨s.data.map asciiLower⟩

/-- Character-list prefix test (Boolean). -/
def charsStarts : List Char → List Char → Bool
  | [], _ => true
  | _ :: _, [] => false
  | a :: as, b :: bs => a == b && charsStarts as bs

/-- Character-list substring test (Boolean). -/
def charsInfix (pat : List Char) : List Char → Bool
  | [] => charsStarts pat []
  | b :: bs => charsStarts pat (b :: bs) || charsInfix pat bs

/-- Model of `data_provider.py:_is_rate_limit_error` (lines 23-25):
the lowered error message contains `"429"` or `"rate limit"`. -/
def isRateLimitError (msg : String) : Bool :=
  charsInfix "429".toList (pyLower msg).data ||
    charsInfix "rate limit".toList (pyLower msg).data

/-- Behaviour of one `yfinance` `history()` attempt: either the call raises
(with a message) or it produces a raw frame (possibly empty). -/
inductive YfOut where
  | raisesMsg (msg : String)
  | frame (raw : RawDF)
deriving DecidableEq

/-- Behaviour of the Alpha Vantage fetch when a key is configured: raise
(transport/HTTP error, swallowed by `get_market_data`), return `None`
(missing/empty payload series), or produce the raw frame that is passed to
`_normalize_history` after the period cutoff filter. -/
inductive AlphaOut where
  | raisesMsg (msg : String)
  | noneResult
  | frame (raw : RawDF)
deriving DecidableEq

/-- One deployment's provider behaviour for a single `(ticker, period)`
request: whether `API_KEY` is configured, the Alpha Vantage outcome, and the
`yfinance` outcome per attempt number (1-based). -/
structure Providers where
  hasKey : Bool
  alpha : AlphaOut
  yf : ℕ → YfOut

/-- The instrumented result of one `get_market_data` body execution. -/
structure GMDOut where
  result : Option RawDF
  alphaAttempts : ℕ
  yfAttempts : ℕ
  sleeps : List ℚ
deriving DecidableEq

/-- The retry loop of `data_provider.py:_fetch_yfinance_history`
(lines 96-115) over the remaining attempt numbers (`range(1, 4)`): a
successful `history()` call returns its normalized frame (or `None`)
immediately; a rate-limited error aborts with `None` at once; other errors
sleep `0.8 * attempt` seconds and retry, with `None` after the third
attempt. Returns (result, attempts used, sleeps performed). -/
def fetchYfGo (yf : ℕ → YfOut) : List ℕ → Option RawDF × ℕ × List ℚ
  | [] => (none, 0, [])
  | k :: ks =>
    match yf k with
    | .frame raw => (normalizeHistory raw, 1, [])
    | .raisesMsg m =>
      if isRateLimitError m then (none, 1, [])
      else
        match ks with
        | [] => (none, 1, [])
        | _ :: _ =>
          let t := fetchYfGo yf ks
          (t.1, t.2.1 + 1, ((4 : ℚ) / 5 * k) :: t.2.2)

/-- Model of `_fetch_yfinance_history` with its three attempts. -/
def fetchYfinanceHistory (yf : ℕ → YfOut) : Option RawDF × ℕ × List ℚ :=
  fetchYfGo yf [1, 2, 3]

/-- Model of `_fetch_alpha_vantage_history` (lines 52-93) as seen by
`get_market_data`: `Except.error` models an escaping exception; the second
component counts network attempts (0 when no API key is configured). -/
def fetchAlphaVantage (pv : Providers) : Except String (Option RawDF) × ℕ :=
  if pv.hasKey = false then (Except.ok none, 0)
  else
    match pv.alpha with
    | .raisesMsg m => (Except.error m, 1)
    | .noneResult => (Except.ok none, 1)
    | .frame raw => (Except.ok (normalizeHistory raw), 1)

/-- Truthiness of `data is not None and not data.empty`. -/
def isGoodData : Option RawDF → Bool
  | some df => !df.rows.isEmpty
  | none => false

/-- Model of `data_provider.py:get_market_data` (lines 118-138), without the
`st.cache_data` wrapper (modelled separately): normalize the ticker; empty
tickers short-circuit; try Alpha Vantage, swallowing any exception; fall
through to `_fetch_yfinance_history` unless Alpha Vantage produced a
non-empty frame. -/
def getMarketData (pv : Providers) (ticker : String) : GMDOut :=
  let nt := pyUpper (pyStrip ticker)
  if nt.data.isEmpty then ⟨none, 0, 0, []⟩
  else
    let a := fetchAlphaVantage pv
    let aRes : Option RawDF :=
      match a.1 with
      | .ok r => r
      | .error _ => none
    if isGoodData aRes then ⟨aRes, a.2, 0, []⟩
    else
      let y := fetchYfinanceHistory pv.yf
      ⟨y.1, a.2, y.2.1, y.2.2⟩

/-- Concrete provider behaviour for the C9 witness: no Alpha Vantage key,
yfinance returns an unsorted two-row frame with a junk column and a NaN. -/
def pvC9 : Providers :=
  ⟨false, .noneResult,
   fun _ => .frame ⟨["Close", "Junk"], [(1, [some 101, none]), (0, [some 100, some 5])]⟩⟩

/-- The always-rate-limited yfinance behaviour for the C5 witness. -/
def yfC5 : ℕ → YfOut := fun _ => .raisesMsg "HTTP Error 429: Too Many Requests"

/-- Providers for the C5 witness: Alpha Vantage raises a rate-limit error,
yfinance is rate-limited too. -/
def pvC5 : Providers := ⟨true, .raisesMsg "exceeded Rate Limit", yfC5⟩

/-- Providers for the C4 counterexample: Alpha Vantage raises a transport
error, yfinance succeeds at the first attempt. -/
def pvC4 : Providers :=
  ⟨true, .raisesMsg "connection timed out",
   fun _ => .frame ⟨["Close"], [(0, [some 100])]⟩⟩

/-- Providers for the C4 witness: no key, yfinance always raises a
non-rate-limit transport error. -/
def pvC4w : Providers := ⟨false, .noneResult, fun _ => .raisesMsg "boom"⟩

/-! ### The `st.cache_data` layer and `app.py:get_data_with_fallback` -/

/-- The `st.cache_data` store: entries keyed by the raw `(ticker, period)`
argument pair of `get_market_data`, most recent first. -/
abbrev Cache := List ((String × String) × Option RawDF)

/-- Cache lookup by exact argument key. -/
def cacheLookup (c : Cache) (k : String × String) : Option (Option RawDF) :=
  match c with
  | [] => none
  | e :: rest => if e.1 = k then some e.2 else cacheLookup rest k

/-- The instrumented result of a cached call: the returned value, the cache
afterwards, and the number of provider network attempts performed. -/
structure CachedOut where
  result : Option RawDF
  cache : Cache
  net : ℕ
deriving DecidableEq

/-- Model of `@st.cache_data`-wrapped `get_market_data`: a hit returns the
stored value (even a stored `None`) with no network activity; a miss runs
the body (whose provider behaviour may depend on the period) and stores the
returned value — whatever it is — under the `(ticker, period)` key. -/
def getMarketDataCached (pv : String → Providers) (c : Cache) (t p : String) :
    CachedOut :=
  match cacheLookup c (t, p) with
  | some v => ⟨v, c, 0⟩
  | none =>
    let o := getMarketData (pv p) t
    ⟨o.result, ((t, p), o.result) :: c, o.alphaAttempts + o.yfAttempts⟩

/-- Model of `app.py:get_data_with_fallback` (lines 79-90): return the
requested period's data when present and non-empty, otherwise retry with
the `"6mo"` period (unless that was already the request), otherwise
`None`. -/
def getDataWithFallback (pv : String → Providers) (c : Cache) (t p : String) :
    CachedOut :=
  let d1 := getMarketDataCached pv c t p
  if isGoodData d1.result then d1
  else
    if p ≠ "6mo" then
      let d2 := getMarketDataCached pv d1.cache t "6mo"
      if isGoodData d2.result then ⟨d2.result, d2.cache, d1.net + d2.net⟩
      else ⟨none, d2.cache, d1.net + d2.net⟩
    else ⟨none, d1.cache, d1.net⟩

/-- Provider behaviour per period for the C1 scenario: every provider yields
no data for any period other than `"6mo"`, while the `"6mo"` fetch succeeds
with a two-row series. -/
def pvC1 : String → Providers := fun per =>
  if per = "6mo" then
    ⟨false, .noneResult,
     fun _ => .frame ⟨["Close"], [(0, [some 100]), (1, [some 101])]⟩⟩
  else ⟨false, .noneResult, fun _ => .frame ⟨[], []⟩⟩

/-! ### Generic list lemmas about the pipeline building blocks -/

theorem foldlMin_mem (xs : List ℚ) : ∀ a : ℚ, xs.foldl min a ∈ a :: xs := by
  induction xs with
  | nil => intro a; simp [List.foldl]
  | cons x xs ih =>
    intro a
    rw [List.foldl_cons]
    rcases min_choice a x with hc | hc <;> rw [hc]
    · rcases List.mem_cons.mp (ih a) with h1 | h1 <;> simp [h1]
    · rcases List.mem_cons.mp (ih x) with h1 | h1 <;> simp [h1]

theorem listMin_mem {l : List ℚ} (h : l ≠ []) : listMin l ∈ l := by
  cases l with
  | nil => exact absurd rfl h
  | cons x xs => simpa [listMin] using foldlMin_mem xs x

theorem listMin_nonpos {l : List ℚ} (hne : l ≠ []) (h : ∀ x ∈ l, x ≤ 0) :
    listMin l ≤ 0 :=
  h _ (listMin_mem hne)

theorem listMin_eq_zero {l : List ℚ} (hne : l ≠ []) (h : ∀ x ∈ l, x = 0) :
    listMin l = 0 :=
  h _ (listMin_mem hne)

theorem cumprodAux_length (rs : List ℚ) : ∀ acc, (cumprodAux acc rs).length = rs.length := by
  induction rs with
  | nil => intro acc; rfl
  | cons r rs ih => intro acc; simp [cumprodAux, ih]

theorem cummaxAux_length (xs : List ℚ) : ∀ m, (cummaxAux m xs).length = xs.length := by
  induction xs with
  | nil => intro m; rfl
  | cons x xs ih => intro m; simp [cummaxAux, ih]

theorem cummaxList_length (xs : List ℚ) : (cummaxList xs).length = xs.length := by
  cases xs with
  | nil => rfl
  | cons x xs => simp [cummaxList, cummaxAux_length]

theorem pctChanges_length (l : List ℚ) : (pctChanges l).length = l.length - 1 := by
  simp [pctChanges, List.length_zip, List.length_tail]

theorem cumprodAux_pos (rs : List ℚ) :
    ∀ acc, 0 < acc → (∀ r ∈ rs, 0 < 1 + r) → ∀ g ∈ cumprodAux acc rs, 0 < g := by
  induction rs with
  | nil => intro acc _ _ g hg; simp [cumprodAux] at hg
  | cons r rs ih =>
    intro acc hacc hr g hg
    have hpos : 0 < acc * (1 + r) :=
      mul_pos hacc (hr r (List.mem_cons_self r rs))
    rcases (List.mem_cons.mp hg) with h | h
    · exact h ▸ hpos
    · exact ih _ hpos (fun x hx => hr x (List.mem_cons_of_mem _ hx)) g h

theorem cummaxAux_pairs (xs : List ℚ) :
    ∀ m, ∀ p ∈ xs.zip (cummaxAux m xs), p.1 ≤ p.2 ∧ m ≤ p.2 := by
  induction xs with
  | nil => intro m p hp; simp [cummaxAux] at hp
  | cons x xs ih =>
    intro m p hp
    rw [cummaxAux, List.zip_cons_cons] at hp
    rcases List.mem_cons.mp hp with h | h
    · subst h; exact ⟨le_max_right m x, le_max_left m x⟩
    · have := ih (max m x) p h
      exact ⟨this.1, le_trans (le_max_left m x) this.2⟩

theorem cummaxList_pairs (xs : List ℚ) :
    ∀ p ∈ xs.zip (cummaxList xs), p.1 ≤ p.2 := by
  cases xs with
  | nil => intro p hp; simp [cummaxList] at hp
  | cons x xs =>
    intro p hp
    rw [cummaxList, List.zip_cons_cons] at hp
    rcases List.mem_cons.mp hp with h | h
    · subst h; exact le_refl x
    · exact (cummaxAux_pairs xs x p h).1

theorem cummaxAux_mem_le (xs : List ℚ) : ∀ m y, y ∈ cummaxAux m xs → m ≤ y := by
  induction xs with
  | nil => intro m y hy; simp [cummaxAux] at hy
  | cons x xs ih =>
    intro m y hy
    rw [cummaxAux] at hy
    rcases List.mem_cons.mp hy with h | h
    · exact h ▸ le_max_left m x
    · exact le_trans (le_max_left m x) (ih _ y h)

theorem cummaxList_pos (xs : List ℚ) (hx : ∀ x ∈ xs, 0 < x) :
    ∀ y ∈ cummaxList xs, 0 < y := by
  cases xs with
  | nil => intro y hy; simp [cummaxList] at hy
  | cons x xs =>
    intro y hy
    rw [cummaxList] at hy
    rcases List.mem_cons.mp hy with h | h
    · exact h ▸ hx x (List.mem_cons_self x xs)
    · exact lt_of_lt_of_le (hx x (List.mem_cons_self x xs)) (cummaxAux_mem_le xs x y h)

theorem drawdownList_nonpos {gs ms : List ℚ}
    (h : ∀ p ∈ gs.zip ms, p.1 ≤ p.2 ∧ 0 < p.2) :
    ∀ d ∈ drawdownList gs ms, d ≤ 0 := by
  intro d hd
  rcases List.mem_map.mp hd with ⟨p, hp, rfl⟩
  have h1 := h p hp
  have : p.1 / p.2 ≤ 1 := (div_le_one h1.2).mpr h1.1
  linarith

theorem chain'_zip_tail {l : List ℚ} (h : List.Chain' (· ≤ ·) l) :
    ∀ p ∈ l.zip l.tail, p.1 ≤ p.2 := by
  induction l with
  | nil => intro p hp; simp at hp
  | cons x xs ih =>
    intro p hp
    cases xs with
    | nil => simp at hp
    | cons y ys =>
      rw [List.tail_cons, List.zip_cons_cons] at hp
      rcases List.mem_cons.mp hp with hh | hh
      · subst hh; exact (List.chain'_cons.mp h).1
      · exact ih (List.chain'_cons.mp h).2 p hh

theorem cumprodAux_chain (rs : List ℚ) :
    ∀ acc, 0 < acc → (∀ r ∈ rs, 0 ≤ r) →
      List.Chain (· ≤ ·) acc (cumprodAux acc rs) := by
  induction rs with
  | nil => intro acc _ _; exact List.Chain.nil
  | cons r rs ih =>
    intro acc hacc hr
    rw [cumprodAux]
    refine List.Chain.cons ?_ ?_
    · have h1 : (1 : ℚ) ≤ 1 + r := by
        have := hr r (List.mem_cons_self r rs)
        linarith
      exact le_mul_of_one_le_right hacc.le h1
    · refine ih _ ?_ (fun x hx => hr x (List.mem_cons_of_mem _ hx))
      have h1 : (0 : ℚ) < 1 + r := by
        have := hr r (List.mem_cons_self r rs)
        linarith
      exact mul_pos hacc h1

theorem cummaxAux_of_chain (xs : List ℚ) :
    ∀ m, List.Chain (· ≤ ·) m xs → cummaxAux m xs = xs := by
  induction xs with
  | nil => intro m _; rfl
  | cons x xs ih =>
    intro m hm
    rcases hm with _ | ⟨hmx, hxs⟩
    rw [cummaxAux, max_eq_right hmx, ih x hxs]

theorem cummaxList_of_chain' {xs : List ℚ} (h : List.Chain' (· ≤ ·) xs) :
    cummaxList xs = xs := by
  cases xs with
  | nil => rfl
  | cons x xs => rw [cummaxList, cummaxAux_of_chain xs x h]

theorem zip_self_fst_eq_snd (l : List ℚ) : ∀ p ∈ l.zip l, p.1 = p.2 := by
  induction l with
  | nil => intro p hp; simp at hp
  | cons x xs ih =>
    intro p hp
    rw [List.zip_cons_cons] at hp
    rcases List.mem_cons.mp hp with h | h
    · subst h; rfl
    · exact ih p h

/-! ### Branch lemmas for the metrics functions -/

theorem closeVals_guard {df : DF} (h : df.closeVals ≠ []) :
    (df.isEmptyDF || df.close.isNone) = false := by
  have hv : df.validClose ≠ [] := by
    intro hv; exact h (by simp [DF.closeVals, hv])
  cases hc : df.close with
  | none => exact absurd (by simp [DF.validClose, hc]) hv
  | some cs =>
    cases hd : df.dates with
    | nil => exact absurd (by simp [DF.validClose, hc, hd]) hv
    | cons d ds => simp [DF.isEmptyDF, hd, hc]

theorem closeVals_ne_of_two {df : DF} (h2 : 2 ≤ df.closeVals.length) :
    df.closeVals ≠ [] := by
  intro h; rw [h] at h2; simp at h2

theorem returns_ne_nil {df : DF} (h2 : 2 ≤ df.closeVals.length) :
    pctChanges df.closeVals ≠ [] := by
  apply List.ne_nil_of_length_pos
  rw [pctChanges_length]
  omega

theorem drawdown_length (rs : List ℚ) :
    (drawdownList (cumprod1p rs) (cummaxList (cumprod1p rs))).length = rs.length := by
  simp [drawdownList, List.length_zip, cumprod1p, cumprodAux_length, cummaxList_length]

/-- Full-branch value of the `max_drawdown` field of `app.py:calcular_metricas`. -/
theorem appCalc_mdd (F : FloatOps) (df : DF) (bench : Option DF)
    (h2 : 2 ≤ df.closeVals.length) :
    (appCalcularMetricas F df bench).max_drawdown =
      some (some (listMin (drawdownList (cumprod1p (pctChanges df.closeVals))
        (cummaxList (cumprod1p (pctChanges df.closeVals)))) * 100)) := by
  have hguard := closeVals_guard (closeVals_ne_of_two h2)
  have hlen : ¬ df.closeVals.length < 2 := not_lt.mpr h2
  have hdd : (drawdownList (cumprod1p (pctChanges df.closeVals))
      (cummaxList (cumprod1p (pctChanges df.closeVals)))).isEmpty = false := by
    rw [← Bool.not_eq_true, List.isEmpty_iff]
    apply List.ne_nil_of_length_pos
    rw [drawdown_length, pctChanges_length]
    omega
  simp [appCalcularMetricas, hguard, hlen, hdd]

/-- Full-branch value of the `maximo_drawdown` field of
`metrics.py:calcular_metricas`. -/
theorem metricsCalc_mdd (F : FloatOps) (df : DF)
    (h2 : 2 ≤ df.closeVals.length) :
    (metricsCalcularMetricas F df).maximo_drawdown =
      some (some (listMin (drawdownList (cumprod1p (pctChanges df.closeVals))
        (cummaxList (cumprod1p (pctChanges df.closeVals)))))) := by
  have hguard := closeVals_guard (closeVals_ne_of_two h2)
  have hce : df.closeVals.isEmpty = false := by
    rw [← Bool.not_eq_true, List.isEmpty_iff]
    exact closeVals_ne_of_two h2
  have hdd : (drawdownList (cumprod1p (pctChanges df.closeVals))
      (cummaxList (cumprod1p (pctChanges df.closeVals)))).isEmpty = false := by
    rw [← Bool.not_eq_true, List.isEmpty_iff]
    apply List.ne_nil_of_length_pos
    rw [drawdown_length, pctChanges_length]
    omega
  simp [metricsCalcularMetricas, hguard, hce, hdd]

/-- Every return computed from a positive close series satisfies
`0 < 1 + r` (the cumulative-growth factors are positive). -/
theorem pct_one_add_pos {l : List ℚ} (hpos : ∀ q ∈ l, 0 < q) :
    ∀ r ∈ pctChanges l, 0 < 1 + r := by
  intro r hr
  rcases List.mem_map.mp hr with ⟨p, hp, rfl⟩
  have h1 : p.1 ∈ l := (List.of_mem_zip hp).1
  have h2 : p.2 ∈ l := List.mem_of_mem_tail (List.of_mem_zip hp).2
  have : 0 < p.2 / p.1 := div_pos (hpos _ h2) (hpos _ h1)
  linarith

/-- On a non-decreasing positive close series, every return is non-negative. -/
theorem pct_nonneg_of_chain {l : List ℚ} (hpos : ∀ q ∈ l, 0 < q)
    (hch : List.Chain' (· ≤ ·) l) : ∀ r ∈ pctChanges l, 0 ≤ r := by
  intro r hr
  rcases List.mem_map.mp hr with ⟨p, hp, rfl⟩
  have h1 : p.1 ∈ l := (List.of_mem_zip hp).1
  have hle : p.1 ≤ p.2 := chain'_zip_tail hch p hp
  have : 1 ≤ p.2 / p.1 := (one_le_div (hpos _ h1)).mpr hle
  linarith

/-- The computed drawdown series of a positive close series is pointwise
non-positive. -/
theorem drawdown_elements_nonpos {l : List ℚ} (hpos : ∀ q ∈ l, 0 < q) :
    ∀ d ∈ drawdownList (cumprod1p (pctChanges l))
      (cummaxList (cumprod1p (pctChanges l))), d ≤ 0 := by
  have hg : ∀ g ∈ cumprod1p (pctChanges l), 0 < g :=
    cumprodAux_pos _ 1 one_pos (pct_one_add_pos hpos)
  apply drawdownList_nonpos
  intro p hp
  refine ⟨cummaxList_pairs _ p hp, ?_⟩
  exact cummaxList_pos _ hg _ (List.of_mem_zip hp).2

/-- On a non-decreasing positive close series the drawdown series is
identically zero. -/
theorem drawdown_elements_zero {l : List ℚ} (hpos : ∀ q ∈ l, 0 < q)
    (hch : List.Chain' (· ≤ ·) l) :
    ∀ d ∈ drawdownList (cumprod1p (pctChanges l))
      (cummaxList (cumprod1p (pctChanges l))), d = 0 := by
  have hg : ∀ g ∈ cumprod1p (pctChanges l), 0 < g :=
    cumprodAux_pos _ 1 one_pos (pct_one_add_pos hpos)
  have hchain : List.Chain (· ≤ ·) 1 (cumprodAux 1 (pctChanges l)) :=
    cumprodAux_chain _ 1 one_pos (pct_nonneg_of_chain hpos hch)
  have hch' : List.Chain' (· ≤ ·) (cumprod1p (pctChanges l)) := by
    have : List.Chain' (· ≤ ·) ((1 : ℚ) :: cumprodAux 1 (pctChanges l)) := hchain
    exact this.tail
  intro d hd
  rw [drawdownList, cummaxList_of_chain' hch'] at hd
  rcases List.mem_map.mp hd with ⟨p, hp, rfl⟩
  have heq : p.1 = p.2 := zip_self_fst_eq_snd _ p hp
  have hp1 : 0 < p.1 := hg _ (List.of_mem_zip hp).1
  rw [← heq, div_self (ne_of_gt hp1)]
  ring

theorem dd_ne_nil {df : DF} (h2 : 2 ≤ df.closeVals.length) :
    drawdownList (cumprod1p (pctChanges df.closeVals))
      (cummaxList (cumprod1p (pctChanges df.closeVals))) ≠ [] := by
  apply List.ne_nil_of_length_pos
  rw [drawdown_length, pctChanges_length]
  omega

/-- C7: for every series of positive closes with at least 2 valid values, the
computed max drawdown (the minimum of `cumprod(1+r) / cummax(cumprod(1+r)) - 1`,
times 100 in `app.py`, as a fraction in `metrics.py`) is non-positive, and is
zero for a monotonically non-decreasing close sequence. -/
theorem claimC7 (F : FloatOps) (df : DF) (bench : Option DF)
    (hpos : ∀ q ∈ df.closeVals, 0 < q) (h2 : 2 ≤ df.closeVals.length) :
    ∃ v : ℚ,
      (appCalcularMetricas F df bench).max_drawdown = some (some (v * 100)) ∧
      (metricsCalcularMetricas F df).maximo_drawdown = some (some v) ∧
      v ≤ 0 ∧
      (List.Chain' (· ≤ ·) df.closeVals → v = 0) := by
  refine ⟨listMin (drawdownList (cumprod1p (pctChanges df.closeVals))
    (cummaxList (cumprod1p (pctChanges df.closeVals)))),
    appCalc_mdd F df bench h2, metricsCalc_mdd F df h2, ?_, ?_⟩
  · exact listMin_nonpos (dd_ne_nil h2) (drawdown_elements_nonpos hpos)
  · intro hch
    exact listMin_eq_zero (dd_ne_nil h2) (drawdown_elements_zero hpos hch)

theorem dfC7w_closeVals : dfC7w.closeVals = [1, 2, 2] := by
  simp [dfC7w, DF.closeVals, DF.validClose]

theorem claimC7_witness :
    ∃ v : ℚ,
      (appCalcularMetricas idFloatOps dfC7w none).max_drawdown = some (some (v * 100)) ∧
      (metricsCalcularMetricas idFloatOps dfC7w).maximo_drawdown = some (some v) ∧
      v ≤ 0 ∧
      (List.Chain' (· ≤ ·) dfC7w.closeVals → v = 0) :=
  claimC7 idFloatOps dfC7w none
    (by rw [dfC7w_closeVals]; intro q hq; simp at hq; rcases hq with h | h <;> subst h <;> norm_num)
    (by rw [dfC7w_closeVals]; norm_num)

/-! ### Branch lemmas for short close series -/

theorem appCalc_short (F : FloatOps) (df : DF) (bench : Option DF)
    (h : df.closeVals.length < 2) :
    appCalcularMetricas F df bench = allNoneOut := by
  by_cases hg : (df.isEmptyDF || df.close.isNone) = true
  · simp [appCalcularMetricas, hg]
  · rw [Bool.not_eq_true] at hg
    simp [appCalcularMetricas, hg, h]

theorem metricsCalc_noclose (F : FloatOps) (df : DF) (h : df.closeVals = []) :
    metricsCalcularMetricas F df = allNoneM := by
  by_cases hg : (df.isEmptyDF || df.close.isNone) = true
  · simp [metricsCalcularMetricas, hg]
  · rw [Bool.not_eq_true] at hg
    have hce : df.closeVals.isEmpty = true := by rw [List.isEmpty_iff]; exact h
    simp [metricsCalcularMetricas, hg, hce]

theorem metricsCalc_one (F : FloatOps) (df : DF) (h : df.closeVals.length = 1) :
    metricsCalcularMetricas F df = ⟨some (some 0), some (some 0), none, none, none⟩ := by
  have hne : df.closeVals ≠ [] := by
    intro hnil; rw [hnil] at h; simp at h
  have hguard := closeVals_guard hne
  have hce : df.closeVals.isEmpty = false := by
    rw [← Bool.not_eq_true, List.isEmpty_iff]; exact hne
  have hr : pctChanges df.closeVals = [] := by
    apply List.length_eq_zero.mp; rw [pctChanges_length, h]
  simp [metricsCalcularMetricas, hguard, hce, hr, h, cumprod1p, cumprodAux,
    cummaxList, drawdownList]

/-- C2 (amended): with fewer than 2 valid closes `app.py:calcular_metricas`
returns all fields `None`; `metrics.py:calcular_metricas` returns all fields
`None` only when there are zero valid closes — with exactly one valid close it
reports the numeric defaults `retorno_acumulado = 0.0` and `cagr = 0.0`
(`calculate_metrics` then also reports `return_accumulated = 0.0` and a
present `last_close`), the remaining fields being `None`. -/
theorem claimC2 (F : FloatOps) (df : DF) (bench : Option DF) :
    (df.closeVals.length < 2 → appCalcularMetricas F df bench = allNoneOut) ∧
    (df.closeVals = [] → metricsCalcularMetricas F df = allNoneM) ∧
    (df.closeVals.length = 1 →
      metricsCalcularMetricas F df = ⟨some (some 0), some (some 0), none, none, none⟩ ∧
      (metricsCalculateMetrics F df).return_accumulated = some (some 0) ∧
      (metricsCalculateMetrics F df).last_close = some (some (ilocLast df.closeVals))) := by
  refine ⟨appCalc_short F df bench, metricsCalc_noclose F df, fun h1 => ?_⟩
  have hne : df.closeVals ≠ [] := by
    intro hnil; rw [hnil] at h1; simp at h1
  have hguard := closeVals_guard hne
  have hem : df.isEmptyDF = false := by
    rcases Bool.or_eq_false_iff.mp hguard with ⟨ha, _⟩; exact ha
  have hsome : df.close.isSome = true := by
    rcases Bool.or_eq_false_iff.mp hguard with ⟨_, hb⟩
    rw [Option.isNone_eq_false_iff] at hb
    exact hb
  have hce : df.closeVals.isEmpty = false := by
    rw [← Bool.not_eq_true, List.isEmpty_iff]; exact hne
  have hm := metricsCalc_one F df h1
  refine ⟨hm, ?_, ?_⟩
  · simp [metricsCalculateMetrics, hm, pyvScale]
  · simp [metricsCalculateMetrics, hem, hsome, hce]

theorem dfC2x_closeVals : dfC2x.closeVals = [100] := by
  simp [dfC2x, DF.closeVals, DF.validClose]

/-- C2 counterexample: on a series with a single valid close (fewer than 2),
`metrics.py:calcular_metricas` reports the numeric values `0.0` for
`retorno_acumulado` and `cagr` instead of the all-absent dictionary the claim
requires. -/
theorem claimC2_counterexample :
    dfC2x.closeVals.length = 1 ∧
    (metricsCalcularMetricas idFloatOps dfC2x).retorno_acumulado = some (some 0) ∧
    (metricsCalcularMetricas idFloatOps dfC2x).cagr = some (some 0) := by
  have h1 : dfC2x.closeVals.length = 1 := by rw [dfC2x_closeVals]; rfl
  have hm := metricsCalc_one idFloatOps dfC2x h1
  exact ⟨h1, by rw [hm], by rw [hm]⟩

theorem dfC2w_closeVals : dfC2w.closeVals = [7] := by
  simp [dfC2w, DF.closeVals, DF.validClose]

theorem claimC2_witness :
    dfC2w.closeVals.length = 1 ∧
    metricsCalcularMetricas idFloatOps dfC2w =
      ⟨some (some 0), some (some 0), none, none, none⟩ ∧
    (metricsCalculateMetrics idFloatOps dfC2w).last_close = some (some 7) := by
  have h1 : dfC2w.closeVals.length = 1 := by rw [dfC2w_closeVals]; rfl
  have h := (claimC2 idFloatOps dfC2w none).2.2 h1
  exact ⟨h1, h.1, by rw [h.2.2, dfC2w_closeVals]; rfl⟩

/-! ### CAGR branch lemmas -/

theorem validClose_length (df : DF) : df.closeVals.length = df.validClose.length := by
  simp [DF.closeVals]

theorem metricsCalc_cagr_first_nonpos (F : FloatOps) (df : DF)
    (h2 : 2 ≤ df.closeVals.length) (hf : ilocFirst df.closeVals ≤ 0) :
    (metricsCalcularMetricas F df).cagr = some (some 0) := by
  have hguard := closeVals_guard (closeVals_ne_of_two h2)
  have hce : df.closeVals.isEmpty = false := by
    rw [← Bool.not_eq_true, List.isEmpty_iff]; exact closeVals_ne_of_two h2
  have hcond : ¬(1 < df.closeVals.length ∧ 0 < ilocFirst df.closeVals) := by
    intro hc; exact absurd hc.2 (not_lt.mpr hf)
  simp [metricsCalcularMetricas, hguard, hce, hcond]

theorem metricsCalc_cagr_dt_nonpos (F : FloatOps) (df : DF)
    (h2 : 2 ≤ df.closeVals.length) (hf : 0 < ilocFirst df.closeVals)
    (hdt : df.isDatetime = true)
    (hdias : (ilocLastP df.validClose).1 - (ilocFirstP df.validClose).1 ≤ 0) :
    (metricsCalcularMetricas F df).cagr = some (some 0) := by
  have hguard := closeVals_guard (closeVals_ne_of_two h2)
  have hce : df.closeVals.isEmpty = false := by
    rw [← Bool.not_eq_true, List.isEmpty_iff]; exact closeVals_ne_of_two h2
  have h1lt : 1 < df.closeVals.length := by omega
  have hvl : 1 < df.validClose.length := by rw [← validClose_length]; omega
  have hanos : ¬(0 < ((((ilocLastP df.validClose).1 -
      (ilocFirstP df.validClose).1 : ℤ) : ℚ) / (1461 / 4))) := by
    apply not_lt.mpr
    apply div_nonpos_of_nonpos_of_nonneg
    · exact_mod_cast hdias
    · norm_num
  simp [metricsCalcularMetricas, hguard, hce, h1lt, hf, hdt, hvl, hanos]
  intro h
  exact absurd h (by omega)

theorem metricsCalc_cagr_dt_pos (F : FloatOps) (df : DF)
    (h2 : 2 ≤ df.closeVals.length) (hf : 0 < ilocFirst df.closeVals)
    (hdt : df.isDatetime = true)
    (hdias : 0 < (ilocLastP df.validClose).1 - (ilocFirstP df.validClose).1) :
    (metricsCalcularMetricas F df).cagr =
      some (some (F.powq (ilocLast df.closeVals / ilocFirst df.closeVals)
        (1 / ((((ilocLastP df.validClose).1 -
          (ilocFirstP df.validClose).1 : ℤ) : ℚ) / (1461 / 4))) - 1)) := by
  have hguard := closeVals_guard (closeVals_ne_of_two h2)
  have hce : df.closeVals.isEmpty = false := by
    rw [← Bool.not_eq_true, List.isEmpty_iff]; exact closeVals_ne_of_two h2
  have h1lt : 1 < df.closeVals.length := by omega
  have hvl : 1 < df.validClose.length := by rw [← validClose_length]; omega
  have hanos : 0 < ((((ilocLastP df.validClose).1 -
      (ilocFirstP df.validClose).1 : ℤ) : ℚ) / (1461 / 4)) := by
    apply div_pos
    · exact_mod_cast hdias
    · norm_num
  simp [metricsCalcularMetricas, hguard, hce, h1lt, hf, hdt, hvl, hanos]
  intro h
  exact absurd h (by omega)

theorem metricsCalc_cagr_fallback (F : FloatOps) (df : DF)
    (h2 : 2 ≤ df.closeVals.length) (hf : 0 < ilocFirst df.closeVals)
    (hdt : df.isDatetime = false) :
    (metricsCalcularMetricas F df).cagr =
      some (some (F.powq (ilocLast df.closeVals / ilocFirst df.closeVals)
        (1 / (((pctChanges df.closeVals).length : ℚ) / 252)) - 1)) := by
  have hguard := closeVals_guard (closeVals_ne_of_two h2)
  have hce : df.closeVals.isEmpty = false := by
    rw [← Bool.not_eq_true, List.isEmpty_iff]; exact closeVals_ne_of_two h2
  have h1lt : 1 < df.closeVals.length := by omega
  have hrl : 0 < (pctChanges df.closeVals).length := by
    rw [pctChanges_length]; omega
  have hanos : 0 < (((pctChanges df.closeVals).length : ℚ) / 252) := by
    apply div_pos
    · exact_mod_cast hrl
    · norm_num
  simp [metricsCalcularMetricas, hguard, hce, h1lt, hf, hdt, hanos]

theorem appCalc_cagr (F : FloatOps) (df : DF) (bench : Option DF)
    (h2 : 2 ≤ df.closeVals.length) :
    (appCalcularMetricas F df bench).cagr =
      some (some ((F.powq (ilocLast df.closeVals / ilocFirst df.closeVals)
        (1 / (((pctChanges df.closeVals).length : ℚ) / 252)) - 1) * 100)) := by
  have hguard := closeVals_guard (closeVals_ne_of_two h2)
  have hlen : ¬ df.closeVals.length < 2 := not_lt.mpr h2
  have hrl : 0 < (pctChanges df.closeVals).length := by
    rw [pctChanges_length]; omega
  have hanos : 0 < (((pctChanges df.closeVals).length : ℚ) / 252) := by
    apply div_pos
    · exact_mod_cast hrl
    · norm_num
  simp [appCalcularMetricas, hguard, hlen, hrl, hanos]

/-- C3 (amended): with at least 2 valid closes, `metrics.py:calcular_metricas`
annualizes over `days_elapsed / 365.25` when the index is a `DatetimeIndex`
and over `len(returns) / 252` otherwise, exactly as claimed; but when
`years <= 0` or the first close is `<= 0` it reports the numeric value `0.0`
rather than an absent field. `app.py:calcular_metricas` always uses
`len(returns) / 252` (never the calendar) and always reports a present CAGR
when there are at least 2 valid closes. -/
theorem claimC3 (F : FloatOps) (df : DF) (bench : Option DF)
    (h2 : 2 ≤ df.closeVals.length) :
    (ilocFirst df.closeVals ≤ 0 → (metricsCalcularMetricas F df).cagr = some (some 0)) ∧
    (0 < ilocFirst df.closeVals → df.isDatetime = true →
      (ilocLastP df.validClose).1 - (ilocFirstP df.validClose).1 ≤ 0 →
      (metricsCalcularMetricas F df).cagr = some (some 0)) ∧
    (0 < ilocFirst df.closeVals → df.isDatetime = true →
      0 < (ilocLastP df.validClose).1 - (ilocFirstP df.validClose).1 →
      (metricsCalcularMetricas F df).cagr =
        some (some (F.powq (ilocLast df.closeVals / ilocFirst df.closeVals)
          (1 / ((((ilocLastP df.validClose).1 -
            (ilocFirstP df.validClose).1 : ℤ) : ℚ) / (1461 / 4))) - 1))) ∧
    (0 < ilocFirst df.closeVals → df.isDatetime = false →
      (metricsCalcularMetricas F df).cagr =
        some (some (F.powq (ilocLast df.closeVals / ilocFirst df.closeVals)
          (1 / (((pctChanges df.closeVals).length : ℚ) / 252)) - 1))) ∧
    (appCalcularMetricas F df bench).cagr =
      some (some ((F.powq (ilocLast df.closeVals / ilocFirst df.closeVals)
        (1 / (((pctChanges df.closeVals).length : ℚ) / 252)) - 1) * 100)) :=
  ⟨metricsCalc_cagr_first_nonpos F df h2,
   metricsCalc_cagr_dt_nonpos F df h2,
   metricsCalc_cagr_dt_pos F df h2,
   metricsCalc_cagr_fallback F df h2,
   appCalc_cagr F df bench h2⟩

theorem dfC3x_closeVals : dfC3x.closeVals = [-1, 2] := by
  simp [dfC3x, DF.closeVals, DF.validClose]

/-- C3 counterexample: with two valid closes whose first value is negative,
`metrics.py:calcular_metricas` reports `cagr = 0.0` (a present numeric value),
not the absent field the claim requires for `close[0] <= 0`. -/
theorem claimC3_counterexample :
    ilocFirst dfC3x.closeVals ≤ 0 ∧ 2 ≤ dfC3x.closeVals.length ∧
    (metricsCalcularMetricas idFloatOps dfC3x).cagr = some (some 0) := by
  have hh : ilocFirst dfC3x.closeVals ≤ 0 := by rw [dfC3x_closeVals]; norm_num [ilocFirst]
  have hl : 2 ≤ dfC3x.closeVals.length := by rw [dfC3x_closeVals]; rfl
  exact ⟨hh, hl, metricsCalc_cagr_first_nonpos idFloatOps dfC3x hl hh⟩

theorem dfC3w_closeVals : dfC3w.closeVals = [8, 16] := by
  simp [dfC3w, DF.closeVals, DF.validClose]

theorem dfC3w_validClose : dfC3w.validClose = [(0, 8), (365, 16)] := by
  simp [dfC3w, DF.validClose]

theorem claimC3_witness :
    0 < ilocFirst dfC3w.closeVals ∧ dfC3w.isDatetime = true ∧
    0 < (ilocLastP dfC3w.validClose).1 - (ilocFirstP dfC3w.validClose).1 ∧
    (metricsCalcularMetricas idFloatOps dfC3w).cagr =
      some (some (idFloatOps.powq (ilocLast dfC3w.closeVals / ilocFirst dfC3w.closeVals)
        (1 / ((((ilocLastP dfC3w.validClose).1 -
          (ilocFirstP dfC3w.validClose).1 : ℤ) : ℚ) / (1461 / 4))) - 1)) := by
  have hf : 0 < ilocFirst dfC3w.closeVals := by rw [dfC3w_closeVals]; norm_num [ilocFirst]
  have hd : 0 < (ilocLastP dfC3w.validClose).1 - (ilocFirstP dfC3w.validClose).1 := by
    rw [dfC3w_validClose]; norm_num [ilocFirstP, ilocLastP]
  have h2 : 2 ≤ dfC3w.closeVals.length := by rw [dfC3w_closeVals]; rfl
  exact ⟨hf, rfl, hd, ((claimC3 idFloatOps dfC3w none h2).2.2.1 hf rfl hd)⟩

/-! ### Sharpe-ratio branch lemmas -/

theorem pyDiv_none_right (a : PyF) : pyDiv a none = none := by
  cases a <;> rfl

theorem pyMul_none_left (b : PyF) : pyMul none b = none := by
  cases b <;> rfl

theorem listMean_const {l : List ℚ} {c : ℚ} (hne : l ≠ []) (h : ∀ x ∈ l, x = c) :
    listMean l = c := by
  have hsum : l.sum = l.length • c := List.sum_eq_card_nsmul l c h
  have hlen : (l.length : ℚ) ≠ 0 := Nat.cast_ne_zero.mpr (List.length_pos.mpr hne).ne'
  rw [listMean, hsum, nsmul_eq_mul, mul_comm, mul_div_assoc, div_self hlen, mul_one]

/-- A list of identical values has sample variance zero. -/
theorem sampleVar_const {l : List ℚ} {c : ℚ} (h : ∀ x ∈ l, x = c) :
    sampleVar l = 0 := by
  cases hl : l with
  | nil => simp [sampleVar, listMean]
  | cons x xs =>
    subst hl
    have hm : listMean (x :: xs) = c := listMean_const (List.cons_ne_nil x xs) h
    have hz : ((x :: xs).map (fun y => (y - listMean (x :: xs)) ^ 2)).sum = 0 := by
      apply List.sum_eq_zero
      intro y hy
      rcases List.mem_map.mp hy with ⟨z, hz, rfl⟩
      rw [hm, h z hz]
      ring
    rw [sampleVar, hz, zero_div]

theorem metricsCalc_sharpe_short (F : FloatOps) (df : DF)
    (hs : (pctChanges df.closeVals).length < 2) :
    (metricsCalcularMetricas F df).sharpe_ratio = none := by
  by_cases hnil : df.closeVals = []
  · rw [metricsCalc_noclose F df hnil]; rfl
  · have hguard := closeVals_guard hnil
    have hce : df.closeVals.isEmpty = false := by
      rw [← Bool.not_eq_true, List.isEmpty_iff]; exact hnil
    have hstd : sampleStd F (pctChanges df.closeVals) = none := by
      simp [sampleStd, hs]
    by_cases hre : (pctChanges df.closeVals).isEmpty = true
    · simp [metricsCalcularMetricas, hguard, hce, hre]
    · rw [Bool.not_eq_true] at hre
      simp [metricsCalcularMetricas, hguard, hce, hre, hstd]

theorem metricsCalc_sharpe_zerovar (F : FloatOps) (df : DF)
    (hsq0 : F.sq 0 = 0) (h2r : 2 ≤ (pctChanges df.closeVals).length)
    (hv : sampleVar (pctChanges df.closeVals) = 0) :
    (metricsCalcularMetricas F df).sharpe_ratio = none := by
  have hnil : df.closeVals ≠ [] := by
    intro h; rw [h] at h2r; simp [pctChanges] at h2r
  have hguard := closeVals_guard hnil
  have hce : df.closeVals.isEmpty = false := by
    rw [← Bool.not_eq_true, List.isEmpty_iff]; exact hnil
  have hre : (pctChanges df.closeVals).isEmpty = false := by
    rw [← Bool.not_eq_true, List.isEmpty_iff]
    apply List.ne_nil_of_length_pos; omega
  have hstd : sampleStd F (pctChanges df.closeVals) = some 0 := by
    simp [sampleStd, not_lt.mpr h2r, hv, hsq0]
  simp [metricsCalcularMetricas, hguard, hce, hre, hstd]

theorem metricsCalc_sharpe_posvar (F : FloatOps) (df : DF)
    (h2r : 2 ≤ (pctChanges df.closeVals).length)
    (hsq : 0 < F.sq (sampleVar (pctChanges df.closeVals))) :
    (metricsCalcularMetricas F df).sharpe_ratio =
      some (some (listMean (pctChanges df.closeVals) /
        F.sq (sampleVar (pctChanges df.closeVals)) * F.sq 252)) := by
  have hnil : df.closeVals ≠ [] := by
    intro h; rw [h] at h2r; simp [pctChanges] at h2r
  have hguard := closeVals_guard hnil
  have hce : df.closeVals.isEmpty = false := by
    rw [← Bool.not_eq_true, List.isEmpty_iff]; exact hnil
  have hre : (pctChanges df.closeVals).isEmpty = false := by
    rw [← Bool.not_eq_true, List.isEmpty_iff]
    apply List.ne_nil_of_length_pos; omega
  have hstd : sampleStd F (pctChanges df.closeVals) =
      some (F.sq (sampleVar (pctChanges df.closeVals))) := by
    simp [sampleStd, not_lt.mpr h2r]
  simp [metricsCalcularMetricas, hguard, hce, hre, hstd, hsq]

theorem appCalc_sharpe_nan (F : FloatOps) (df : DF) (bench : Option DF)
    (h1 : (pctChanges df.closeVals).length = 1) :
    (appCalcularMetricas F df bench).sharpe_ratio = some none := by
  have h2 : 2 ≤ df.closeVals.length := by
    rw [pctChanges_length] at h1; omega
  have hguard := closeVals_guard (closeVals_ne_of_two h2)
  have hlen : ¬ df.closeVals.length < 2 := not_lt.mpr h2
  have hre : (pctChanges df.closeVals).isEmpty = false := by
    rw [← Bool.not_eq_true, List.isEmpty_iff]
    apply List.ne_nil_of_length_pos; omega
  have hstd : sampleStd F (pctChanges df.closeVals) = none := by
    simp [sampleStd, h1]
  simp [appCalcularMetricas, hguard, hlen, hre, hstd, pyNeqZero,
    pyDiv_none_right, pyMul_none_left]

theorem appCalc_sharpe_zerovar (F : FloatOps) (df : DF) (bench : Option DF)
    (hsq0 : F.sq 0 = 0) (h2r : 2 ≤ (pctChanges df.closeVals).length)
    (hv : sampleVar (pctChanges df.closeVals) = 0) :
    (appCalcularMetricas F df bench).sharpe_ratio = none := by
  have h2 : 2 ≤ df.closeVals.length := by
    rw [pctChanges_length] at h2r; omega
  have hguard := closeVals_guard (closeVals_ne_of_two h2)
  have hlen : ¬ df.closeVals.length < 2 := not_lt.mpr h2
  have hstd : sampleStd F (pctChanges df.closeVals) = some 0 := by
    simp [sampleStd, not_lt.mpr h2r, hv, hsq0]
  simp [appCalcularMetricas, hguard, hlen, hstd, pyNeqZero]

theorem appCalc_sharpe_posvar (F : FloatOps) (df : DF) (bench : Option DF)
    (h2r : 2 ≤ (pctChanges df.closeVals).length)
    (hsq : 0 < F.sq (sampleVar (pctChanges df.closeVals))) :
    (appCalcularMetricas F df bench).sharpe_ratio =
      some (some (listMean (pctChanges df.closeVals) /
        F.sq (sampleVar (pctChanges df.closeVals)) * F.sq 252)) := by
  have h2 : 2 ≤ df.closeVals.length := by
    rw [pctChanges_length] at h2r; omega
  have hguard := closeVals_guard (closeVals_ne_of_two h2)
  have hlen : ¬ df.closeVals.length < 2 := not_lt.mpr h2
  have hre : (pctChanges df.closeVals).isEmpty = false := by
    rw [← Bool.not_eq_true, List.isEmpty_iff]
    apply List.ne_nil_of_length_pos; omega
  have hstd : sampleStd F (pctChanges df.closeVals) =
      some (F.sq (sampleVar (pctChanges df.closeVals))) := by
    simp [sampleStd, not_lt.mpr h2r]
  have hne : F.sq (sampleVar (pctChanges df.closeVals)) ≠ 0 := ne_of_gt hsq
  simp [appCalcularMetricas, hguard, hlen, hre, hstd, pyNeqZero, hne,
    pyDiv, pyMul, pyListMean, listMean]

/-- C6 (amended): both implementations compute
`sharpe = mean(r) / std(r) * sqrt(252)` with the sample standard deviation.
`metrics.py:calcular_metricas` is absent (`None`, never NaN) whenever there
are fewer than 2 returns, or the sample variance is zero — in particular for
any series whose daily returns are all identical. `app.py:calcular_metricas`
matches this for 2 or more returns, but with exactly one return (two valid
closes) its `NaN != 0` guard passes and it reports a present NaN instead of
`None`. -/
theorem claimC6 (F : FloatOps) (df : DF) (bench : Option DF)
    (hsq0 : F.sq 0 = 0) (hsqpos : ∀ v : ℚ, 0 < v → 0 < F.sq v) :
    ((pctChanges df.closeVals).length < 2 →
      (metricsCalcularMetricas F df).sharpe_ratio = none) ∧
    (2 ≤ (pctChanges df.closeVals).length →
      sampleVar (pctChanges df.closeVals) = 0 →
      (metricsCalcularMetricas F df).sharpe_ratio = none) ∧
    (2 ≤ (pctChanges df.closeVals).length →
      0 < sampleVar (pctChanges df.closeVals) →
      (metricsCalcularMetricas F df).sharpe_ratio =
        some (some (listMean (pctChanges df.closeVals) /
          F.sq (sampleVar (pctChanges df.closeVals)) * F.sq 252))) ∧
    ((∀ x ∈ pctChanges df.closeVals, x = (pctChanges df.closeVals).headD 0) →
      (metricsCalcularMetricas F df).sharpe_ratio = none) ∧
    ((pctChanges df.closeVals).length = 1 →
      (appCalcularMetricas F df bench).sharpe_ratio = some none) ∧
    (2 ≤ (pctChanges df.closeVals).length →
      sampleVar (pctChanges df.closeVals) = 0 →
      (appCalcularMetricas F df bench).sharpe_ratio = none) ∧
    (2 ≤ (pctChanges df.closeVals).length →
      0 < sampleVar (pctChanges df.closeVals) →
      (appCalcularMetricas F df bench).sharpe_ratio =
        some (some (listMean (pctChanges df.closeVals) /
          F.sq (sampleVar (pctChanges df.closeVals)) * F.sq 252))) := by
  refine ⟨metricsCalc_sharpe_short F df,
    metricsCalc_sharpe_zerovar F df hsq0,
    fun h2r hv => metricsCalc_sharpe_posvar F df h2r (hsqpos _ hv),
    ?_,
    appCalc_sharpe_nan F df bench,
    appCalc_sharpe_zerovar F df bench hsq0,
    fun h2r hv => appCalc_sharpe_posvar F df bench h2r (hsqpos _ hv)⟩
  intro hconst
  by_cases hlen : (pctChanges df.closeVals).length < 2
  · exact metricsCalc_sharpe_short F df hlen
  · exact metricsCalc_sharpe_zerovar F df hsq0 (not_lt.mp hlen)
      (sampleVar_const hconst)

theorem dfC6x_closeVals : dfC6x.closeVals = [100, 110] := by
  simp [dfC6x, DF.closeVals, DF.validClose]

/-- C6 counterexample: with a single daily return (fewer than 2),
`app.py:calcular_metricas` reports `sharpe_ratio = NaN` (a present non-`None`
value), because `Series.std` of one value is NaN and Python's `NaN != 0`
test is true — the claim requires `None`, never NaN. -/
theorem claimC6_counterexample :
    (pctChanges dfC6x.closeVals).length = 1 ∧
    (appCalcularMetricas idFloatOps dfC6x none).sharpe_ratio = some none := by
  have h1 : (pctChanges dfC6x.closeVals).length = 1 := by
    rw [pctChanges_length, dfC6x_closeVals]; rfl
  exact ⟨h1, appCalc_sharpe_nan idFloatOps dfC6x none h1⟩

theorem dfC6w_returns : pctChanges dfC6w.closeVals = [0, 0] := by
  have h : dfC6w.closeVals = [5, 5, 5] := by
    simp [dfC6w, DF.closeVals, DF.validClose]
  rw [h]
  norm_num [pctChanges]

theorem claimC6_witness :
    (∀ x ∈ pctChanges dfC6w.closeVals, x = (pctChanges dfC6w.closeVals).headD 0) ∧
    (metricsCalcularMetricas idFloatOps dfC6w).sharpe_ratio = none := by
  have hc : ∀ x ∈ pctChanges dfC6w.closeVals,
      x = (pctChanges dfC6w.closeVals).headD 0 := by
    rw [dfC6w_returns]; intro x hx; simp at hx; simp [hx]
  exact ⟨hc,
    (claimC6 idFloatOps dfC6w none rfl (fun v hv => hv)).2.2.2.1 hc⟩

theorem calcInd_ma20 (F : FloatOps) (df : DF) (bench : Option DF)
    (h : (df.isEmptyDF || df.close.isNone) = false) :
    dictLookup "ma20" (calculateIndicators F df bench) =
      some (if 20 ≤ df.closeVals.length then
        some (some (lastNMean 20 df.closeVals)) else none) := by
  by_cases h20 : 20 ≤ df.closeVals.length <;>
    simp [calculateIndicators, h, dictLookup, h20]

theorem calcInd_ma50 (F : FloatOps) (df : DF) (bench : Option DF)
    (h : (df.isEmptyDF || df.close.isNone) = false) :
    dictLookup "ma50" (calculateIndicators F df bench) =
      some (if 50 ≤ df.closeVals.length then
        some (some (lastNMean 50 df.closeVals)) else none) := by
  by_cases h50 : 50 ≤ df.closeVals.length <;>
    simp [calculateIndicators, h, dictLookup, h50]

theorem calcInd_empty (F : FloatOps) (df : DF) (bench : Option DF)
    (h : (df.isEmptyDF || df.close.isNone) = true) :
    calculateIndicators F df bench =
      [("last_price", none), ("price_change_pct", none), ("period_return", none),
       ("volatility", none), ("max_drawdown", none), ("avg_volume", none),
       ("ma20", none), ("ma50", none)] := by
  simp [calculateIndicators, h]

theorem closeVals_nil_of_guard {df : DF} (h : (df.isEmptyDF || df.close.isNone) = true) :
    df.closeVals = [] := by
  rcases Bool.or_eq_true_iff.mp h with h1 | h1
  · have : df.dates = [] := by
      rwa [DF.isEmptyDF, List.isEmpty_iff] at h1
    cases hc : df.close <;> simp [DF.closeVals, DF.validClose, hc, this]
  · have : df.close = none := Option.isNone_iff_eq_none.mp h1
    simp [DF.closeVals, DF.validClose, this]

theorem lastN_length {l : List ℚ} {k : ℕ} (h : k ≤ l.length) :
    (l.drop (l.length - k)).length = k := by
  rw [List.length_drop]; omega

theorem lastNMean_eq {l : List ℚ} {k : ℕ} (h : k ≤ l.length) :
    lastNMean k l = (l.drop (l.length - k)).sum / (k : ℚ) := by
  simp only [lastNMean]
  rw [lastN_length h]

/-- C8: `ma20` is absent for any input with fewer than 20 valid closes and
otherwise equals the arithmetic mean of the last 20 valid closes (a window of
exactly 20 entries); `ma50` likewise with window 50. -/
theorem claimC8 (F : FloatOps) (df : DF) (bench : Option DF) :
    (df.closeVals.length < 20 →
      dictLookup "ma20" (calculateIndicators F df bench) = some none) ∧
    (20 ≤ df.closeVals.length →
      dictLookup "ma20" (calculateIndicators F df bench) =
        some (some ((df.closeVals.drop (df.closeVals.length - 20)).sum / 20)) ∧
      (df.closeVals.drop (df.closeVals.length - 20)).length = 20) ∧
    (df.closeVals.length < 50 →
      dictLookup "ma50" (calculateIndicators F df bench) = some none) ∧
    (50 ≤ df.closeVals.length →
      dictLookup "ma50" (calculateIndicators F df bench) =
        some (some ((df.closeVals.drop (df.closeVals.length - 50)).sum / 50)) ∧
      (df.closeVals.drop (df.closeVals.length - 50)).length = 50) := by
  refine ⟨fun h20 => ?_, fun h20 => ?_, fun h50 => ?_, fun h50 => ?_⟩
  · by_cases hg : (df.isEmptyDF || df.close.isNone) = true
    · rw [calcInd_empty F df bench hg]; rfl
    · rw [Bool.not_eq_true] at hg
      rw [calcInd_ma20 F df bench hg, if_neg (not_le.mpr h20)]
  · have hg : (df.isEmptyDF || df.close.isNone) = false := by
      apply closeVals_guard
      intro hn; rw [hn] at h20; simp at h20
    refine ⟨?_, lastN_length h20⟩
    rw [calcInd_ma20 F df bench hg, if_pos h20, lastNMean_eq h20]
    norm_num
  · by_cases hg : (df.isEmptyDF || df.close.isNone) = true
    · rw [calcInd_empty F df bench hg]; rfl
    · rw [Bool.not_eq_true] at hg
      rw [calcInd_ma50 F df bench hg, if_neg (not_le.mpr h50)]
  · have hg : (df.isEmptyDF || df.close.isNone) = false := by
      apply closeVals_guard
      intro hn; rw [hn] at h50; simp at h50
    refine ⟨?_, lastN_length h50⟩
    rw [calcInd_ma50 F df bench hg, if_pos h50, lastNMean_eq h50]
    norm_num

theorem dfC8w_closeVals :
    dfC8w.closeVals =
      [10, 10, 10, 10, 10, 10, 10, 10, 10, 10,
       10, 10, 10, 10, 10, 10, 10, 10, 10, 10] := by
  simp [dfC8w, DF.closeVals, DF.validClose]

theorem claimC8_witness :
    20 ≤ dfC8w.closeVals.length ∧ dfC8w.closeVals.length < 50 ∧
    dictLookup "ma20" (calculateIndicators idFloatOps dfC8w none) =
      some (some ((dfC8w.closeVals.drop (dfC8w.closeVals.length - 20)).sum / 20)) ∧
    dictLookup "ma50" (calculateIndicators idFloatOps dfC8w none) = some none := by
  have h20 : 20 ≤ dfC8w.closeVals.length := by rw [dfC8w_closeVals]; rfl
  have h50 : dfC8w.closeVals.length < 50 := by rw [dfC8w_closeVals]; norm_num
  exact ⟨h20, h50,
    ((claimC8 idFloatOps dfC8w none).2.1 h20).1,
    (claimC8 idFloatOps dfC8w none).2.2.1 h50⟩

theorem calcInd_full_keys (F : FloatOps) (df : DF) (bench : Option DF)
    (h : (df.isEmptyDF || df.close.isNone) = false) :
    keysOf (calculateIndicators F df bench) = fullKeys := by
  simp [calculateIndicators, h, keysOf, fullKeys]

/-- C10: on an empty input or one with no `Close` column,
`calculate_indicators` returns an 8-key dict that omits `retorno_acumulado`,
`cagr`, `sharpe_ratio` and `beta_vs_ibov`; on every input with at least one
valid close the 12-key dict carries those four keys; the two key lists
differ. -/
theorem claimC10 (F : FloatOps) (df : DF) (bench : Option DF) :
    ((df.isEmptyDF || df.close.isNone) = true →
      keysOf (calculateIndicators F df bench) = earlyKeys ∧
      "retorno_acumulado" ∉ keysOf (calculateIndicators F df bench) ∧
      "cagr" ∉ keysOf (calculateIndicators F df bench) ∧
      "sharpe_ratio" ∉ keysOf (calculateIndicators F df bench) ∧
      "beta_vs_ibov" ∉ keysOf (calculateIndicators F df bench)) ∧
    (df.closeVals ≠ [] →
      keysOf (calculateIndicators F df bench) = fullKeys ∧
      "retorno_acumulado" ∈ keysOf (calculateIndicators F df bench) ∧
      "cagr" ∈ keysOf (calculateIndicators F df bench) ∧
      "sharpe_ratio" ∈ keysOf (calculateIndicators F df bench) ∧
      "beta_vs_ibov" ∈ keysOf (calculateIndicators F df bench)) ∧
    earlyKeys ≠ fullKeys := by
  refine ⟨fun hg => ?_, fun hne => ?_, by decide⟩
  · have he : keysOf (calculateIndicators F df bench) = earlyKeys := by
      rw [calcInd_empty F df bench hg]; rfl
    rw [he]
    exact ⟨rfl, by decide, by decide, by decide, by decide⟩
  · have hg : (df.isEmptyDF || df.close.isNone) = false := closeVals_guard hne
    have he := calcInd_full_keys F df bench hg
    rw [he]
    exact ⟨rfl, by decide, by decide, by decide, by decide⟩

theorem claimC10_witness :
    keysOf (calculateIndicators idFloatOps dfC10a none) = earlyKeys ∧
    keysOf (calculateIndicators idFloatOps dfC10b none) = fullKeys ∧
    "cagr" ∈ keysOf (calculateIndicators idFloatOps dfC10b none) := by
  have hb : dfC10b.closeVals ≠ [] := by
    simp [dfC10b, DF.closeVals, DF.validClose]
  exact ⟨((claimC10 idFloatOps dfC10a none).1 rfl).1,
    ((claimC10 idFloatOps dfC10b none).2.1 hb).1,
    ((claimC10 idFloatOps dfC10b none).2.1 hb).2.2.1⟩

/-- Every frame produced by `_normalize_history` is non-empty, date-sorted,
restricted to OHLCV columns, and free of all-missing rows. -/
theorem normalizeHistory_inv {df d : RawDF} (h : normalizeHistory df = some d) :
    d.rows ≠ [] ∧ List.Pairwise rowLe d.rows ∧ d.colNames ⊆ ohlcvNames ∧
    ∀ r ∈ d.rows, rowAnyPresent r = true := by
  unfold normalizeHistory at h
  by_cases h1 : (df.rows.isEmpty || df.colNames.isEmpty) = true
  · rw [if_pos h1] at h; exact absurd h (by simp)
  · rw [if_neg h1] at h
    set kept := ohlcvNames.filter (fun c => df.colNames.contains c) with hkept
    set cleanRows := (df.rows.map
      (fun r => (r.1, kept.map (fun c => colValue df.colNames r.2 c)))).filter
        rowAnyPresent with hclean
    by_cases h2 : (kept.isEmpty || cleanRows.isEmpty) = true
    · rw [if_pos h2] at h; exact absurd h (by simp)
    · rw [if_neg h2] at h
      have hd : d = ⟨kept, List.insertionSort rowLe cleanRows⟩ :=
        (Option.some_inj.mp h).symm
      have hperm := List.perm_insertionSort rowLe cleanRows
      have hcne : cleanRows ≠ [] := by
        intro hc
        rw [Bool.or_eq_true_iff] at h2
        exact h2 (Or.inr (by rw [List.isEmpty_iff]; exact hc))
      refine ⟨?_, ?_, ?_, ?_⟩
      · rw [hd]
        show List.insertionSort rowLe cleanRows ≠ []
        intro hnil
        exact hcne (List.length_eq_zero.mp (by rw [← hperm.length_eq, hnil]; rfl))
      · rw [hd]
        exact List.sorted_insertionSort rowLe cleanRows
      · rw [hd]
        show kept ⊆ ohlcvNames
        exact fun x hx => List.mem_of_mem_filter hx
      · rw [hd]
        intro r hr
        exact List.of_mem_filter (hperm.mem_iff.mp hr)

/-- Every non-absent frame produced by the yfinance retry loop passed
through `_normalize_history`. -/
theorem fetchYfGo_result {yf : ℕ → YfOut} :
    ∀ {ks : List ℕ} {d : RawDF}, (fetchYfGo yf ks).1 = some d →
      ∃ raw, normalizeHistory raw = some d := by
  intro ks
  induction ks with
  | nil => intro d h; simp [fetchYfGo] at h
  | cons k ks ih =>
    intro d h
    cases hyf : yf k with
    | frame raw =>
      simp only [fetchYfGo, hyf] at h
      exact ⟨raw, h⟩
    | raisesMsg m =>
      by_cases hrl : isRateLimitError m = true
      · simp [fetchYfGo, hyf, hrl] at h
      · cases ks with
        | nil => simp [fetchYfGo, hyf, hrl] at h
        | cons k2 ks2 =>
          simp only [fetchYfGo, hyf, hrl, Bool.false_eq_true, if_false, if_neg] at h
          exact ih h

/-- C9: every non-absent result of `get_market_data` is a non-empty series
in ascending date order, restricted to OHLCV columns, with all-missing rows
dropped; a zero-row outcome is always the absent marker, never an empty
frame. -/
theorem claimC9 (pv : Providers) (t : String) (d : RawDF)
    (h : (getMarketData pv t).result = some d) :
    d.rows ≠ [] ∧ List.Pairwise rowLe d.rows ∧ d.colNames ⊆ ohlcvNames ∧
    ∀ r ∈ d.rows, rowAnyPresent r = true := by
  have hnorm : ∃ raw, normalizeHistory raw = some d := by
    unfold getMarketData at h
    by_cases hnt : (pyUpper (pyStrip t)).data.isEmpty = true
    · rw [if_pos hnt] at h; simp at h
    · rw [if_neg hnt] at h
      by_cases hga : isGoodData (match (fetchAlphaVantage pv).1 with
          | .ok r => r
          | .error _ => none) = true
      · rw [if_pos hga] at h
        simp only at h
        unfold fetchAlphaVantage at h hga
        by_cases hk : pv.hasKey = false
        · rw [if_pos hk] at h hga; simp [isGoodData] at hga
        · rw [if_neg hk] at h hga
          cases ha : pv.alpha with
          | raisesMsg m => rw [ha] at h hga; simp [isGoodData] at hga
          | noneResult => rw [ha] at h hga; simp [isGoodData] at hga
          | frame raw =>
            rw [ha] at h
            exact ⟨raw, h⟩
      · rw [if_neg hga] at h
        exact fetchYfGo_result h
  rcases hnorm with ⟨raw, hraw⟩
  exact normalizeHistory_inv hraw

theorem claimC9_witness :
    (getMarketData pvC9 "X").result =
      some ⟨["Close"], [(0, [some 100]), (1, [some 101])]⟩ ∧
    ([(0, [some 100]), (1, [some 101])] : List (ℤ × List PyF)) ≠ [] ∧
    List.Pairwise rowLe ([(0, [some 100]), (1, [some 101])] : List (ℤ × List PyF)) ∧
    (["Close"] : List String) ⊆ ohlcvNames := by
  have hres : (getMarketData pvC9 "X").result =
      some ⟨["Close"], [(0, [some 100]), (1, [some 101])]⟩ := by decide
  have hinv := claimC9 pvC9 "X" _ hres
  exact ⟨hres, hinv.1, hinv.2.1, hinv.2.2.1⟩

/-- C5: a rate-limited error (message containing "429" or "rate limit")
makes the yfinance loop abandon the provider at once — one attempt, no
sleep, no further attempts — and a rate-limited Alpha Vantage exception is
swallowed so that the fetch falls through to yfinance (the next provider)
after a single Alpha Vantage attempt. -/
theorem claimC5 :
    (∀ (yf : ℕ → YfOut) (k : ℕ) (ks : List ℕ) (m : String),
      yf k = .raisesMsg m → isRateLimitError m = true →
      fetchYfGo yf (k :: ks) = (none, 1, [])) ∧
    (∀ (pv : Providers) (t m : String),
      pv.alpha = .raisesMsg m → pv.hasKey = true →
      (pyUpper (pyStrip t)).data.isEmpty = false →
      getMarketData pv t =
        ⟨(fetchYfinanceHistory pv.yf).1, 1, (fetchYfinanceHistory pv.yf).2.1,
         (fetchYfinanceHistory pv.yf).2.2⟩) := by
  constructor
  · intro yf k ks m hyf hrl
    simp [fetchYfGo, hyf, hrl]
  · intro pv t m halpha hkey hnt
    have hk : ¬ pv.hasKey = false := by rw [hkey]; simp
    simp [getMarketData, hnt, fetchAlphaVantage, hk, halpha, isGoodData]

theorem claimC5_witness :
    fetchYfGo yfC5 [1, 2, 3] = (none, 1, []) ∧
    getMarketData pvC5 "aaa " =
      ⟨(fetchYfinanceHistory pvC5.yf).1, 1, (fetchYfinanceHistory pvC5.yf).2.1,
       (fetchYfinanceHistory pvC5.yf).2.2⟩ :=
  ⟨claimC5.1 yfC5 1 [2, 3] "HTTP Error 429: Too Many Requests" rfl (by decide),
   claimC5.2 pvC5 "aaa " "exceeded Rate Limit" rfl rfl (by decide)⟩

theorem alphaAttempts_le_one (pv : Providers) (t : String) :
    (getMarketData pv t).alphaAttempts ≤ 1 := by
  have ha : (fetchAlphaVantage pv).2 ≤ 1 := by
    unfold fetchAlphaVantage
    by_cases hk : pv.hasKey = false
    · simp [hk]
    · cases pv.alpha <;> simp [hk]
  unfold getMarketData
  by_cases hnt : (pyUpper (pyStrip t)).data.isEmpty = true
  · simp [hnt]
  · rw [Bool.not_eq_true] at hnt
    simp only [hnt, Bool.false_eq_true, if_false]
    by_cases hga : isGoodData (match (fetchAlphaVantage pv).1 with
        | .ok r => r
        | .error _ => none) = true
    · simp [hga, ha]
    · rw [Bool.not_eq_true] at hga
      simp [hga, ha]

/-- C4 (amended): the Alpha Vantage provider is never retried — any
exception falls through to yfinance after at most one attempt — while the
yfinance provider retries transport errors up to 3 attempts with linearly
increasing sleeps of `0.8 * attempt` seconds (0.8s, then 1.6s) and returns
the absent marker after exhaustion. -/
theorem claimC4 (pv : Providers) (t : String) (m : ℕ → String)
    (hyf : ∀ k, pv.yf k = .raisesMsg (m k))
    (hnrl : ∀ k, isRateLimitError (m k) = false) :
    (getMarketData pv t).alphaAttempts ≤ 1 ∧
    fetchYfinanceHistory pv.yf = (none, 3, [4/5, 8/5]) := by
  refine ⟨alphaAttempts_le_one pv t, ?_⟩
  simp [fetchYfinanceHistory, fetchYfGo, hyf 1, hyf 2, hyf 3,
    hnrl 1, hnrl 2, hnrl 3]
  norm_num

/-- C4 counterexample: on a transport error, Alpha Vantage is attempted
exactly once (never 3 times) and the fetch falls through to yfinance
immediately — the claimed per-provider 3-attempt retry does not happen for
the Alpha Vantage provider. -/
theorem claimC4_counterexample :
    isRateLimitError "connection timed out" = false ∧
    pvC4.alpha = .raisesMsg "connection timed out" ∧
    getMarketData pvC4 "X" =
      ⟨some ⟨["Close"], [(0, [some 100])]⟩, 1, 1, []⟩ := by
  refine ⟨by decide, rfl, by decide⟩

theorem claimC4_witness :
    (getMarketData pvC4w "X").alphaAttempts ≤ 1 ∧
    fetchYfinanceHistory pvC4w.yf = (none, 3, [4/5, 8/5]) :=
  claimC4 pvC4w "X" (fun _ => "boom") (fun _ => rfl)
    (fun _ => (by decide : isRateLimitError "boom" = false))

/-- C1 (amended): when the requested period yields no data and the `"6mo"`
retry succeeds, the fallback returns the narrowed series, but the narrowed
series is cached under the `("6mo")` key while the failed (absent) result is
what gets cached under the originally requested period's key; a second call
with the same arguments still returns the narrowed series without any new
network attempt, because both the failure and the narrowed result are
cache hits. -/
theorem claimC1 (pv : String → Providers) (t p : String) (hp : p ≠ "6mo")
    (h1 : isGoodData (getMarketData (pv p) t).result = false)
    (h2 : isGoodData (getMarketData (pv "6mo") t).result = true) :
    (getDataWithFallback pv [] t p).result = (getMarketData (pv "6mo") t).result ∧
    cacheLookup (getDataWithFallback pv [] t p).cache (t, p) =
      some (getMarketData (pv p) t).result ∧
    cacheLookup (getDataWithFallback pv [] t p).cache (t, "6mo") =
      some (getMarketData (pv "6mo") t).result ∧
    getDataWithFallback pv (getDataWithFallback pv [] t p).cache t p =
      ⟨(getMarketData (pv "6mo") t).result, (getDataWithFallback pv [] t p).cache, 0⟩ := by
  have hk : ¬ (((t, p) : String × String) = (t, "6mo")) := by
    intro he
    exact hp (congrArg Prod.snd he)
  have hk2 : ¬ (((t, "6mo") : String × String) = (t, p)) := fun he => hk he.symm
  have e1 : getMarketDataCached pv [] t p =
      ⟨(getMarketData (pv p) t).result,
       [((t, p), (getMarketData (pv p) t).result)],
       (getMarketData (pv p) t).alphaAttempts + (getMarketData (pv p) t).yfAttempts⟩ :=
    rfl
  have e2 : getMarketDataCached pv [((t, p), (getMarketData (pv p) t).result)] t "6mo" =
      ⟨(getMarketData (pv "6mo") t).result,
       [((t, "6mo"), (getMarketData (pv "6mo") t).result),
        ((t, p), (getMarketData (pv p) t).result)],
       (getMarketData (pv "6mo") t).alphaAttempts + (getMarketData (pv "6mo") t).yfAttempts⟩ := by
    simp [getMarketDataCached, cacheLookup, hk]
  have eF : getDataWithFallback pv [] t p =
      ⟨(getMarketData (pv "6mo") t).result,
       [((t, "6mo"), (getMarketData (pv "6mo") t).result),
        ((t, p), (getMarketData (pv p) t).result)],
       ((getMarketData (pv p) t).alphaAttempts + (getMarketData (pv p) t).yfAttempts) +
         ((getMarketData (pv "6mo") t).alphaAttempts + (getMarketData (pv "6mo") t).yfAttempts)⟩ := by
    simp only [getDataWithFallback, e1, h1, Bool.false_eq_true, if_false, hp,
      ne_eq, not_false_eq_true, if_true, e2, h2, if_pos]
  have second : ∀ c : Cache,
      cacheLookup c (t, p) = some (getMarketData (pv p) t).result →
      cacheLookup c (t, "6mo") = some (getMarketData (pv "6mo") t).result →
      getDataWithFallback pv c t p =
        ⟨(getMarketData (pv "6mo") t).result, c, 0⟩ := by
    intro c l1 l2
    simp only [getDataWithFallback, getMarketDataCached, l1, l2, h1,
      Bool.false_eq_true, if_false, hp, ne_eq, not_false_eq_true, if_true, h2,
      if_pos, Nat.add_zero]
  have lk1 : cacheLookup (getDataWithFallback pv [] t p).cache (t, p) =
      some (getMarketData (pv p) t).result := by
    rw [eF]; simp [cacheLookup, hk2]
  have lk2 : cacheLookup (getDataWithFallback pv [] t p).cache (t, "6mo") =
      some (getMarketData (pv "6mo") t).result := by
    rw [eF]; simp [cacheLookup]
  exact ⟨by rw [eF], lk1, lk2, second _ lk1 lk2⟩

/-- C1 counterexample: after the first `get_data_with_fallback("X", "1y")`
call the returned series is non-empty (the narrowing fallback fired), yet
the cache entry under the originally requested key `("X", "1y")` holds the
absent marker `None` rather than the narrowed series — the narrowed result
is cached under `("X", "6mo")` instead, refuting the claimed cache-key
placement. -/
theorem claimC1_counterexample :
    isGoodData (getDataWithFallback pvC1 [] "X" "1y").result = true ∧
    cacheLookup (getDataWithFallback pvC1 [] "X" "1y").cache ("X", "1y") =
      some none := by
  constructor <;> decide

theorem claimC1_witness :
    (getDataWithFallback pvC1 [] "X" "1y").result =
      (getMarketData (pvC1 "6mo") "X").result ∧
    cacheLookup (getDataWithFallback pvC1 [] "X" "1y").cache ("X", "1y") =
      some (getMarketData (pvC1 "1y") "X").result ∧
    cacheLookup (getDataWithFallback pvC1 [] "X" "1y").cache ("X", "6mo") =
      some (getMarketData (pvC1 "6mo") "X").result ∧
    getDataWithFallback pvC1 (getDataWithFallback pvC1 [] "X" "1y").cache "X" "1y" =
      ⟨(getMarketData (pvC1 "6mo") "X").result,
       (getDataWithFallback pvC1 [] "X" "1y").cache, 0⟩ :=
  claimC1 pvC1 "X" "1y" (by decide) (by decide) (by decide)
